import Mathlib

/-!
A shallow embedding of the EEPROM I2C driver of this repository: the
class EEPROM of the translation unit together with the C entry points of
EEPROM.h.  uint16_t arithmetic is modelled on Nat with an explicit
reduction modulo 2 ^ 16 at every point where the C code truncates
(uint16_t returns, uint16_t parameter passing, uint16_t compound
assignment); uint32_t values are reduced modulo 2 ^ 32.  The external HAL
collaborators are oracles:

* the outcome of the n-th bus operation performed by a driver call is
  transport n (HAL_I2C_Mem_Write and HAL_I2C_Mem_Read share one call
  counter, matching the order of the calls the driver issues);
* the device memory is dev, one byte per memory address (reduced mod 256,
  a byte travels on the bus);
* the CRC engine HAL_CRC_Calculate is crcCalculate, an arbitrary function
  of the bytes of the word region passed to it and of the word count.

Every bus operation and every HAL_Delay call is recorded as an Event, so
the theorems can speak about the exact sequence of bus operations and
delay invocations a driver call performs.  The fixed per-operation bus
timeout (sTimeout) is an argument of the HAL primitives and is absorbed
into the transport oracle.
-/

namespace EEPROM

/-- HAL_StatusTypeDef of the STM32 HAL: HAL_OK, HAL_ERROR, HAL_BUSY,
HAL_TIMEOUT. -/
inductive HALStatus where
  | ok
  | error
  | busy
  | timeout
  deriving DecidableEq

/-- EEPROM_Status of EEPROM.h (the source spells Sucess). -/
inductive Status where
  | Sucess
  | NotInitialized
  | Busy
  | Timeout
  | InvalidCRC
  | Error
  deriving DecidableEq

/-- decodeStatusHAL of the translation unit: HAL_OK to Sucess, HAL_BUSY to
Busy, HAL_TIMEOUT to Timeout, default to Error. -/
def decodeStatusHAL : HALStatus → Status
  | HALStatus.ok => Status.Sucess
  | HALStatus.busy => Status.Busy
  | HALStatus.timeout => Status.Timeout
  | HALStatus.error => Status.Error

/-- EEPROM_Config.  The two HAL handles are pointers of which the driver
only ever inspects nullness, so they are modelled as Bool: true stands
for a non-null handle, false for nullptr. -/
structure Config where
  hI2C : Bool
  hCRC : Bool
  deviceAddress : Nat
  pageSize : Nat
  deriving DecidableEq

/-- The member initializer of EEPROM::mConfig:
EEPROM_Config mConfig(nullptr, nullptr, 0xA0, 64). -/
def defaultConfig : Config := ⟨false, false, 0xA0, 64⟩

/-- EEPROM::init.  Validates the incoming configuration, returns
NotInitialized without touching mConfig when a handle is null or the page
size is 0, otherwise assigns mConfig = config and returns Sucess.  The
first component is the returned status, the second the value of mConfig
after the call. -/
def init (mConfig config : Config) : Status × Config :=
  if config.hI2C = false ∨ config.hCRC = false ∨ config.pageSize = 0 then
    (Status.NotInitialized, mConfig)
  else
    (Status.Sucess, config)

/-- EEPROM::isInitialized: both handles non-null.  Note the source does
not inspect mConfig.pageSize here. -/
def isInitialized (c : Config) : Bool := c.hI2C && c.hCRC

/-- EEPROM::getCountOfPagesFor: bufferSize / mConfig.pageSize + 1,
returned as uint16_t (hence the reduction modulo 2 ^ 16). -/
def getCountOfPagesFor (c : Config) (bufferSize : Nat) : Nat :=
  (bufferSize / c.pageSize + 1) % 2 ^ 16

/-- EEPROM::getPageMemoryAddress: page * mConfig.pageSize as uint16_t. -/
def getPageMemoryAddress (c : Config) (page : Nat) : Nat :=
  page * c.pageSize % 2 ^ 16

/-- EEPROM::sTimeout, the fixed bus timeout handed to every HAL memory
operation. -/
def sTimeout : Nat := 50

/-- EEPROM::sWriteDelay, the write-settle delay in milliseconds. -/
def sWriteDelay : Nat := 5

/-- One observable step of a driver call: a HAL_I2C_Mem_Write of the given
bytes at the given device memory address, a HAL_I2C_Mem_Read of the given
byte count at the given address, or a HAL_Delay of the given duration. -/
inductive Event where
  | busWrite (memAddr : Nat) (data : List Nat)
  | busRead (memAddr : Nat) (count : Nat)
  | delay (ms : Nat)
  deriving DecidableEq

/-- True for the two bus operations, false for a delay. -/
def Event.isBusOp : Event → Bool
  | Event.delay _ => false
  | _ => true

/-- True exactly for a delay event. -/
def Event.isDelay : Event → Bool
  | Event.delay _ => true
  | _ => false

/-- The bus operations of a trace, in order. -/
def busEvents (evs : List Event) : List Event := evs.filter Event.isBusOp

/-- The delay invocations of a trace, in order. -/
def delayEvents (evs : List Event) : List Event := evs.filter Event.isDelay

/-- How many bus operations a trace contains. -/
def countBusOps (evs : List Event) : Nat := (busEvents evs).length

/-- Which HAL primitive iterateOverPages was instantiated with:
HAL_I2C_Mem_Write or HAL_I2C_Mem_Read. -/
inductive XferKind where
  | memWrite
  | memRead
  deriving DecidableEq

/-- The bus operation one loop iteration issues: for a write, the count
bytes of the buffer starting at the current cursor; for a read, a read
request of count bytes. -/
def chunkEvent (kind : XferKind) (buffer : List Nat) (memAddr ptrOff count : Nat) : Event :=
  match kind with
  | XferKind.memWrite => Event.busWrite memAddr ((buffer.drop ptrOff).take count)
  | XferKind.memRead => Event.busRead memAddr count

/-- The bytes a successful read chunk deposits into the caller's buffer:
count device bytes starting at the chunk's memory address.  A write chunk
deposits nothing. -/
def chunkData (kind : XferKind) (dev : Nat → Nat) (memAddr count : Nat) : List Nat :=
  match kind with
  | XferKind.memWrite => []
  | XferKind.memRead => (List.range count).map (fun j => dev (memAddr + j) % 256)

/-- Result of one run of EEPROM::iterateOverPages: the HAL status it
returns, the events it performed in order, the bytes it deposited into the
caller's buffer (read instantiation), and the final values of its
memoryAddress and ptr cursors. -/
structure IterResult where
  status : HALStatus
  events : List Event
  bytesRead : List Nat
  memoryAddress : Nat
  ptrOff : Nat
  deriving DecidableEq

/-- The loop body of EEPROM::iterateOverPages.  Arguments after the
environment: fuel, the running bus-call index, the memoryAddress cursor
(uint16_t, already reduced), the ptr cursor as an offset into buffer, and
bytesRemain (uint16_t).  Each iteration processes
count = min bytesRemain pageSize bytes (the source's
bytesRemain > pageSize ? pageSize : bytesRemain), returns the HAL status
at the first non-HAL_OK outcome, performs HAL_Delay(delay) after every
successful chunk, and advances both cursors by pageSize.  The fuel only
serves termination: one unit per iteration; since every iteration with
pageSize > 0 consumes at least one byte, fuel = bytesRemain suffices, and
none is produced exactly in the pageSize = 0 case in which the C loop
never terminates. -/
def iterateOverPagesAux (c : Config) (kind : XferKind) (transport : Nat → HALStatus)
    (dev : Nat → Nat) (buffer : List Nat) (d : Nat) :
    Nat → Nat → Nat → Nat → Nat → Option IterResult
  | _, _, memAddr, ptrOff, 0 => some ⟨HALStatus.ok, [], [], memAddr, ptrOff⟩
  | 0, _, _, _, _ + 1 => none
  | fuel + 1, callIdx, memAddr, ptrOff, br + 1 =>
    let count := min (br + 1) c.pageSize
    if count = 0 then none
    else
      match transport callIdx with
      | HALStatus.ok =>
        match iterateOverPagesAux c kind transport dev buffer d fuel (callIdx + 1)
            ((memAddr + c.pageSize) % 2 ^ 16) (ptrOff + c.pageSize) (br + 1 - count) with
        | none => none
        | some r =>
          some ⟨r.status,
            chunkEvent kind buffer memAddr ptrOff count :: Event.delay d :: r.events,
            chunkData kind dev memAddr count ++ r.bytesRead,
            r.memoryAddress, r.ptrOff⟩
      | st => some ⟨st, [chunkEvent kind buffer memAddr ptrOff count], [], memAddr, ptrOff⟩

/-- EEPROM::iterateOverPages.  Starts at getPageMemoryAddress(page) with
the buffer cursor at 0; bytesRemain is initialised from the size_t size
parameter through a uint16_t, hence the reduction. -/
def iterateOverPages (c : Config) (kind : XferKind) (transport : Nat → HALStatus)
    (dev : Nat → Nat) (buffer : List Nat) (page size d : Nat) : Option IterResult :=
  iterateOverPagesAux c kind transport dev buffer d (size % 2 ^ 16) 0
    (getPageMemoryAddress c page) 0 (size % 2 ^ 16)

/-- EEPROM::writeBuffer: iterateOverPages with HAL_I2C_Mem_Write and the
sWriteDelay settle delay. -/
def writeBuffer (c : Config) (transport : Nat → HALStatus) (buffer : List Nat)
    (page size : Nat) : Option IterResult :=
  iterateOverPages c XferKind.memWrite transport (fun _ => 0) buffer page size sWriteDelay

/-- EEPROM::readBuffer: iterateOverPages with HAL_I2C_Mem_Read and delay 0. -/
def readBuffer (c : Config) (transport : Nat → HALStatus) (dev : Nat → Nat)
    (page size : Nat) : Option IterResult :=
  iterateOverPages c XferKind.memRead transport dev [] page size 0

/-- The little-endian byte image of a uint32_t value, as it sits in memory
on the (little-endian) target when its address is passed to
HAL_I2C_Mem_Write. -/
def le32 (v : Nat) : List Nat :=
  [v % 256, v / 2 ^ 8 % 256, v / 2 ^ 16 % 256, v / 2 ^ 24 % 256]

/-- The uint32_t assembled from four consecutive device bytes,
little-endian, as a 4-byte HAL_I2C_Mem_Read into a uint32_t produces it. -/
def word32At (dev : Nat → Nat) (addr : Nat) : Nat :=
  dev addr % 256 + 2 ^ 8 * (dev (addr + 1) % 256) + 2 ^ 16 * (dev (addr + 2) % 256) +
    2 ^ 24 * (dev (addr + 3) % 256)

/-- EEPROM::calcCRC: HAL_CRC_Calculate over the buffer reinterpreted as
32-bit words, with word count bufferSize / 4.  The engine therefore sees
exactly the first 4 * (bufferSize / 4) bytes of the buffer; its uint32_t
result is reduced modulo 2 ^ 32. -/
def calcCRC (crcCalculate : List Nat → Nat → Nat) (buffer : List Nat) (bufferSize : Nat) : Nat :=
  crcCalculate (buffer.take (4 * (bufferSize / 4))) (bufferSize / 4) % 2 ^ 32

/-- EEPROM::writeCRC: computes calcCRC over the buffer and issues one
single HAL_I2C_Mem_Write of the 4 bytes of the value at
getPageMemoryAddress(page).  callIdx is the oracle index of that bus
operation; the pair is the HAL status and the recorded event. -/
def writeCRC (c : Config) (crcCalculate : List Nat → Nat → Nat) (transport : Nat → HALStatus)
    (callIdx page : Nat) (buffer : List Nat) (bufferSize : Nat) : HALStatus × List Event :=
  (transport callIdx,
    [Event.busWrite (getPageMemoryAddress c page)
      (le32 (calcCRC crcCalculate buffer bufferSize))])

/-- EEPROM::readCRC: one single HAL_I2C_Mem_Read of 4 bytes at
getPageMemoryAddress(page) into a uint32_t.  The third component is the
value of that uint32_t after the call: the device word on HAL_OK, the
zero-initialised value otherwise. -/
def readCRC (c : Config) (transport : Nat → HALStatus) (dev : Nat → Nat)
    (callIdx page : Nat) : HALStatus × List Event × Nat :=
  (transport callIdx,
    [Event.busRead (getPageMemoryAddress c page) 4],
    if transport callIdx = HALStatus.ok then word32At dev (getPageMemoryAddress c page) else 0)

/-- EEPROM::write.  Guard on isInitialized, data transfer via writeBuffer,
then, when useCRC, one writeCRC at page + getCountOfPagesFor(size) (a
uint16_t parameter, hence the reduction); every HAL status is translated
through decodeStatusHAL and a non-Sucess translation returns immediately
(the RETURN_IF_ERROR macro).  Returns the driver status and the event
trace; none only in the diverging pageSize = 0 loop case. -/
def write (c : Config) (crcCalculate : List Nat → Nat → Nat) (transport : Nat → HALStatus)
    (page : Nat) (buffer : List Nat) (size : Nat) (useCRC : Bool) :
    Option (Status × List Event) :=
  if !isInitialized c then some (Status.NotInitialized, [])
  else
    match writeBuffer c transport buffer page size with
    | none => none
    | some r =>
      if decodeStatusHAL r.status ≠ Status.Sucess then some (decodeStatusHAL r.status, r.events)
      else if !useCRC then some (Status.Sucess, r.events)
      else
        let wc := writeCRC c crcCalculate transport (countBusOps r.events)
          ((page + getCountOfPagesFor c size) % 2 ^ 16) buffer size
        if decodeStatusHAL wc.1 ≠ Status.Sucess then some (decodeStatusHAL wc.1, r.events ++ wc.2)
        else some (Status.Sucess, r.events ++ wc.2)

/-- EEPROM::read.  Guard on isInitialized, data transfer via readBuffer,
then, when useCRC, one readCRC at page + getCountOfPagesFor(size),
followed by the comparison of the stored value with calcCRC over the
just-read buffer; a mismatch yields InvalidCRC.  The third component of
the result is the content of the caller's buffer after the call: the
bytes the data transfer deposited, whatever the final status. -/
def read (c : Config) (crcCalculate : List Nat → Nat → Nat) (transport : Nat → HALStatus)
    (dev : Nat → Nat) (page size : Nat) (useCRC : Bool) :
    Option (Status × List Event × List Nat) :=
  if !isInitialized c then some (Status.NotInitialized, [], [])
  else
    match readBuffer c transport dev page size with
    | none => none
    | some r =>
      if decodeStatusHAL r.status ≠ Status.Sucess then
        some (decodeStatusHAL r.status, r.events, r.bytesRead)
      else if !useCRC then some (Status.Sucess, r.events, r.bytesRead)
      else
        let rc := readCRC c transport dev (countBusOps r.events)
          ((page + getCountOfPagesFor c size) % 2 ^ 16)
        if decodeStatusHAL rc.1 ≠ Status.Sucess then
          some (decodeStatusHAL rc.1, r.events ++ rc.2.1, r.bytesRead)
        else if rc.2.2 ≠ calcCRC crcCalculate r.bytesRead size then
          some (Status.InvalidCRC, r.events ++ rc.2.1, r.bytesRead)
        else some (Status.Sucess, r.events ++ rc.2.1, r.bytesRead)

/-- EEPROM_makeDefaultConfig. -/
def EEPROM_makeDefaultConfig (hI2C hCRC : Bool) : Config := ⟨hI2C, hCRC, 0xA0, 64⟩

/-- EEPROM_Init: sInstance.init(config). -/
def EEPROM_Init (mConfig config : Config) : Status × Config := init mConfig config

/-- EEPROM_Write: sInstance.write(page, bytes, size, true). -/
def EEPROM_Write (c : Config) (crcCalculate : List Nat → Nat → Nat)
    (transport : Nat → HALStatus) (page : Nat) (bytes : List Nat) (size : Nat) :
    Option (Status × List Event) :=
  write c crcCalculate transport page bytes size true

/-- EEPROM_Read: sInstance.read(page, bytes, size, true). -/
def EEPROM_Read (c : Config) (crcCalculate : List Nat → Nat → Nat)
    (transport : Nat → HALStatus) (dev : Nat → Nat) (page size : Nat) :
    Option (Status × List Event × List Nat) :=
  read c crcCalculate transport dev page size true

/-- EEPROM_getBuffersPagesCount of the translation unit:
sInstance.getCountOfPagesFor(bufferSize) + 1 (the extra page for the CRC
record), returned as uint16_t. -/
def EEPROM_getBuffersPagesCount (c : Config) (bufferSize : Nat) : Nat :=
  (getCountOfPagesFor c bufferSize + 1) % 2 ^ 16

/-- Number of loop iterations iterateOverPages performs for bytesRemain =
n and page size p > 0: the ceiling of n / p. -/
def numChunks (p n : Nat) : Nat := if n = 0 then 0 else (n - 1) / p + 1

/-- The configuration states the driver singleton can be in: the
member-initialised default, followed by any sequence of EEPROM::init
calls (the only code that assigns mConfig). -/
inductive Reachable : Config → Prop where
  | initial : Reachable defaultConfig
  | step (c config : Config) : Reachable c → Reachable (init c config).2

/-! Helper lemmas about the embedded operations. -/

@[simp]
theorem isBusOp_chunkEvent (kind : XferKind) (buffer : List Nat) (a o n : Nat) :
    (chunkEvent kind buffer a o n).isBusOp = true := by
  cases kind <;> rfl

@[simp]
theorem isDelay_chunkEvent (kind : XferKind) (buffer : List Nat) (a o n : Nat) :
    (chunkEvent kind buffer a o n).isDelay = false := by
  cases kind <;> rfl

@[simp]
theorem busEvents_nil : busEvents [] = [] := rfl

@[simp]
theorem delayEvents_nil : delayEvents [] = [] := rfl

@[simp]
theorem busEvents_cons_chunk (kind : XferKind) (buffer : List Nat) (a o n : Nat)
    (evs : List Event) :
    busEvents (chunkEvent kind buffer a o n :: evs) =
      chunkEvent kind buffer a o n :: busEvents evs := by
  simp [busEvents, List.filter_cons]

@[simp]
theorem busEvents_cons_delay (m : Nat) (evs : List Event) :
    busEvents (Event.delay m :: evs) = busEvents evs := by
  simp [busEvents, List.filter_cons, Event.isBusOp]

@[simp]
theorem delayEvents_cons_chunk (kind : XferKind) (buffer : List Nat) (a o n : Nat)
    (evs : List Event) :
    delayEvents (chunkEvent kind buffer a o n :: evs) = delayEvents evs := by
  simp [delayEvents, List.filter_cons]

@[simp]
theorem delayEvents_cons_delay (m : Nat) (evs : List Event) :
    delayEvents (Event.delay m :: evs) = Event.delay m :: delayEvents evs := by
  simp [delayEvents, List.filter_cons, Event.isDelay]

theorem decodeStatusHAL_eq_sucess (st : HALStatus) :
    decodeStatusHAL st = Status.Sucess ↔ st = HALStatus.ok := by
  cases st <;> simp [decodeStatusHAL]

/-- Every reachable configuration state has a positive page size: the
default member initializer uses 64 and EEPROM::init rejects pageSize 0
before assigning. -/
theorem Reachable.pageSize_pos {c : Config} (h : Reachable c) : 0 < c.pageSize := by
  induction h with
  | initial => simp [defaultConfig]
  | step c config _ ih =>
    by_cases hbad : config.hI2C = false ∨ config.hCRC = false ∨ config.pageSize = 0
    · simpa [init, hbad] using ih
    · have : config.pageSize ≠ 0 := fun h0 => hbad (Or.inr (Or.inr h0))
      simp [init, hbad]
      omega

theorem numChunks_zero (p : Nat) : numChunks p 0 = 0 := rfl

/-- One iteration of the transfer loop consumes min bytesRemain pageSize
bytes and contributes one chunk. -/
theorem numChunks_succ_chunk (p br : Nat) (hp : 0 < p) (hbr : 0 < br) :
    numChunks p br = numChunks p (br - min br p) + 1 := by
  rcases le_or_lt br p with h | h
  · have h1 : min br p = br := by omega
    have h2 : br - 1 < p := by omega
    rw [h1, Nat.sub_self]
    simp [numChunks, Nat.div_eq_of_lt h2]
    omega
  · have h1 : min br p = p := by omega
    have hb0 : br ≠ 0 := by omega
    have hb1 : br - p ≠ 0 := by omega
    rw [h1]
    simp only [numChunks, if_neg hb0, if_neg hb1]
    have h2 : br - 1 = br - p - 1 + p := by omega
    rw [h2, Nat.add_div_right _ hp]

theorem numChunks_mul (p : Nat) (hp : 0 < p) (n : Nat) : numChunks p (n * p) = n := by
  induction n with
  | zero => simp [numChunks]
  | succ m ih =>
    have h1 : 0 < (m + 1) * p := by positivity
    rw [numChunks_succ_chunk p ((m + 1) * p) hp h1]
    have hle : p ≤ (m + 1) * p := by
      calc p = 1 * p := (one_mul p).symm
      _ ≤ (m + 1) * p := Nat.mul_le_mul_right p (by omega)
    have h2 : min ((m + 1) * p) p = p := by omega
    have h3 : (m + 1) * p - p = m * p := by rw [Nat.add_mul, one_mul]; omega
    rw [h2, h3, ih]

/-- Full characterisation of the transfer loop when every transport call
reports HAL_OK: it returns HAL_OK; the i-th of its numChunks bus
operations addresses memAddr + i * pageSize (uint16_t) and covers
min (bytesRemain - i * pageSize) pageSize bytes of the buffer starting at
offset ptrOff + i * pageSize; each chunk is followed by one
HAL_Delay(d); both cursors end advanced by numChunks * pageSize. -/
theorem iterateOverPagesAux_ok (c : Config) (kind : XferKind) (transport : Nat → HALStatus)
    (dev : Nat → Nat) (buffer : List Nat) (d : Nat) (hp : 0 < c.pageSize)
    (htr : ∀ i, transport i = HALStatus.ok) :
    ∀ fuel callIdx memAddr ptrOff br, br ≤ fuel → memAddr < 2 ^ 16 →
      ∃ r, iterateOverPagesAux c kind transport dev buffer d fuel callIdx memAddr ptrOff br =
          some r ∧
        r.status = HALStatus.ok ∧
        busEvents r.events = (List.range (numChunks c.pageSize br)).map (fun i =>
          chunkEvent kind buffer ((memAddr + i * c.pageSize) % 2 ^ 16)
            (ptrOff + i * c.pageSize) (min (br - i * c.pageSize) c.pageSize)) ∧
        delayEvents r.events = List.replicate (numChunks c.pageSize br) (Event.delay d) ∧
        r.memoryAddress = (memAddr + numChunks c.pageSize br * c.pageSize) % 2 ^ 16 ∧
        r.ptrOff = ptrOff + numChunks c.pageSize br * c.pageSize := by
  intro fuel
  induction fuel with
  | zero =>
    intro callIdx memAddr ptrOff br hf hm
    have hbr : br = 0 := by omega
    subst hbr
    refine ⟨⟨HALStatus.ok, [], [], memAddr, ptrOff⟩, by simp [iterateOverPagesAux], rfl,
      by simp [numChunks], by simp [numChunks], by simp [numChunks]; omega,
      by simp [numChunks]⟩
  | succ f ih =>
    intro callIdx memAddr ptrOff br hf hm
    rcases br with _ | b
    · refine ⟨⟨HALStatus.ok, [], [], memAddr, ptrOff⟩, by simp [iterateOverPagesAux], rfl,
        by simp [numChunks], by simp [numChunks], by simp [numChunks]; omega,
        by simp [numChunks]⟩
    · have hW : (0 : Nat) < 2 ^ 16 := by norm_num
      have hm' : memAddr % 65536 = memAddr := Nat.mod_eq_of_lt (by omega)
      obtain ⟨r, hr, hst, hbus, hdel, hma, hpo⟩ :=
        ih (callIdx + 1) ((memAddr + c.pageSize) % 2 ^ 16) (ptrOff + c.pageSize)
          (b + 1 - min (b + 1) c.pageSize) (by omega) (Nat.mod_lt _ hW)
      have hnum := numChunks_succ_chunk c.pageSize (b + 1) hp (Nat.succ_pos b)
      refine ⟨⟨r.status,
        chunkEvent kind buffer memAddr ptrOff (min (b + 1) c.pageSize) :: Event.delay d ::
          r.events,
        chunkData kind dev memAddr (min (b + 1) c.pageSize) ++ r.bytesRead,
        r.memoryAddress, r.ptrOff⟩, ?_, hst, ?_, ?_, ?_, ?_⟩
      · simp only [iterateOverPagesAux]
        rw [if_neg (by omega)]
        simp only [htr, hr]
      · rw [hnum]
        simp only [busEvents_cons_chunk, busEvents_cons_delay]
        rw [hbus, List.range_succ_eq_map, List.map_cons, List.map_map]
        congr 1
        · simp [hm']
        · refine List.map_congr_left ?_
          intro i hi
          have him : i < numChunks c.pageSize (b + 1 - min (b + 1) c.pageSize) :=
            List.mem_range.mp hi
          have hppos : c.pageSize < b + 1 := by
            by_contra hle
            have h1 : min (b + 1) c.pageSize = b + 1 := by omega
            rw [h1, Nat.sub_self] at him
            simp [numChunks] at him
          have hminp : min (b + 1) c.pageSize = c.pageSize := by omega
          rw [hminp]
          simp only [Function.comp_apply]
          have e1 : (memAddr + Nat.succ i * c.pageSize) % 2 ^ 16 =
              ((memAddr + c.pageSize) % 2 ^ 16 + i * c.pageSize) % 2 ^ 16 := by
            rw [Nat.mod_add_mod]
            congr 1
            rw [Nat.succ_mul]
            omega
          have e2 : ptrOff + Nat.succ i * c.pageSize =
              ptrOff + c.pageSize + i * c.pageSize := by
            rw [Nat.succ_mul]; omega
          have e3 : b + 1 - Nat.succ i * c.pageSize =
              b + 1 - c.pageSize - i * c.pageSize := by
            rw [Nat.succ_mul]; omega
          rw [e1, e2, e3]
      · rw [hnum]
        simp only [delayEvents_cons_chunk, delayEvents_cons_delay]
        rw [hdel, List.replicate_succ]
      · rw [hnum, hma, Nat.mod_add_mod]
        congr 1
        rw [Nat.succ_mul]
        omega
      · rw [hnum, hpo, Nat.succ_mul]
        omega

/-- When the transport reports HAL_OK for the first k chunks and a
non-HAL_OK outcome for chunk k (which exists: k * pageSize < bytesRemain),
the loop stops right there: it returns that outcome and has performed
exactly k + 1 bus operations. -/
theorem iterateOverPagesAux_fail (c : Config) (kind : XferKind) (transport : Nat → HALStatus)
    (dev : Nat → Nat) (buffer : List Nat) (d : Nat) (hp : 0 < c.pageSize) :
    ∀ k fuel callIdx memAddr ptrOff br, br ≤ fuel → k * c.pageSize < br →
      (∀ j, j < k → transport (callIdx + j) = HALStatus.ok) →
      transport (callIdx + k) ≠ HALStatus.ok →
      ∃ r, iterateOverPagesAux c kind transport dev buffer d fuel callIdx memAddr ptrOff br =
          some r ∧
        r.status = transport (callIdx + k) ∧ countBusOps r.events = k + 1 := by
  intro k
  induction k with
  | zero =>
    intro fuel callIdx memAddr ptrOff br hfuel hlt _ hbad
    rw [Nat.add_zero] at hbad ⊢
    obtain ⟨f, rfl⟩ : ∃ f, fuel = f + 1 := ⟨fuel - 1, by omega⟩
    obtain ⟨b, rfl⟩ : ∃ b, br = b + 1 := ⟨br - 1, by omega⟩
    cases hst : transport callIdx
    case ok => exact absurd hst hbad
    all_goals
      exact ⟨⟨transport callIdx,
        [chunkEvent kind buffer memAddr ptrOff (min (b + 1) c.pageSize)], [],
        memAddr, ptrOff⟩,
        by
          simp only [iterateOverPagesAux]
          rw [if_neg (by omega), hst],
        hst, by simp [countBusOps]⟩
  | succ k ihk =>
    intro fuel callIdx memAddr ptrOff br hfuel hlt hok hbad
    rw [Nat.succ_mul] at hlt
    obtain ⟨f, rfl⟩ : ∃ f, fuel = f + 1 := ⟨fuel - 1, by omega⟩
    obtain ⟨b, rfl⟩ : ∃ b, br = b + 1 := ⟨br - 1, by omega⟩
    have hok0 : transport callIdx = HALStatus.ok := by
      simpa using hok 0 (by omega)
    have hmin : min (b + 1) c.pageSize = c.pageSize := by omega
    obtain ⟨r, hr, hst, hcnt⟩ :=
      ihk f (callIdx + 1) ((memAddr + c.pageSize) % 2 ^ 16) (ptrOff + c.pageSize)
        (b + 1 - c.pageSize) (by omega) (by omega)
        (fun j hj => by
          have h1 := hok (j + 1) (by omega)
          rwa [show callIdx + (j + 1) = callIdx + 1 + j from by omega] at h1)
        (by rwa [show callIdx + 1 + k = callIdx + (k + 1) from by omega])
    refine ⟨⟨r.status,
      chunkEvent kind buffer memAddr ptrOff (min (b + 1) c.pageSize) :: Event.delay d ::
        r.events,
      chunkData kind dev memAddr (min (b + 1) c.pageSize) ++ r.bytesRead,
      r.memoryAddress, r.ptrOff⟩, ?_, ?_, ?_⟩
    · simp only [iterateOverPagesAux]
      rw [if_neg (by omega)]
      simp only [hok0, hmin, hr]
    · rw [hst]
      congr 1
      omega
    · simp only [countBusOps] at hcnt ⊢
      simp [hcnt]

/-! The claims. -/

/-- Claim C1, as stated, is false at pageSize 1 and bufferSize 65535:
getCountOfPagesFor returns a uint16_t, so floor(65535 / 1) + 1 = 65536
wraps to 0. -/
theorem C1_counterexample :
    getCountOfPagesFor ⟨true, true, 0xA0, 1⟩ 65535 ≠ 65535 / 1 + 1 := by
  decide

/-- Claim C1 (amended): for every buffer size s and configured page size
p > 0, pagesSpanned (EEPROM::getCountOfPagesFor) returns
(floor(s / p) + 1) mod 2 ^ 16, which equals floor(s / p) + 1 whenever that
value fits in a uint16_t — in particular for every p at least 2, and
including exact multiples of p. -/
theorem C1_pagesSpanned_amended (c : Config) (s : Nat) (_hp : 0 < c.pageSize)
    (h : s / c.pageSize + 1 < 2 ^ 16) :
    getCountOfPagesFor c s = s / c.pageSize + 1 :=
  Nat.mod_eq_of_lt h

/-- Claim C1 witness: a buffer of exactly 2 pages (128 bytes at page size
64) is reported as spanning 3 pages. -/
theorem C1_witness :
    0 < (⟨true, true, 0xA0, 64⟩ : Config).pageSize ∧
    getCountOfPagesFor ⟨true, true, 0xA0, 64⟩ 128 = 3 :=
  ⟨by decide, C1_pagesSpanned_amended ⟨true, true, 0xA0, 64⟩ 128 (by decide) (by decide)⟩

/-- Claim C2: configure (EEPROM::init) returns NotInitialized when either
handle is absent or pageSize is 0, and returns Sucess otherwise; on
success the stored configuration becomes exactly the new one (wholesale
replacement). -/
theorem C2_configure (mConfig config : Config) :
    ((config.hI2C = false ∨ config.hCRC = false ∨ config.pageSize = 0) →
      (init mConfig config).1 = Status.NotInitialized) ∧
    (config.hI2C = true → config.hCRC = true → config.pageSize ≠ 0 →
      init mConfig config = (Status.Sucess, config)) := by
  constructor
  · intro h
    simp only [init, if_pos h]
  · intro h1 h2 h3
    have hcond : ¬(config.hI2C = false ∨ config.hCRC = false ∨ config.pageSize = 0) := by
      simp [h1, h2, h3]
    simp only [init, if_neg hcond]

/-- Claim C2 witness: a configuration with a null CRC handle is rejected,
a complete one with a fresh address and page size fully replaces the old
configuration. -/
theorem C2_witness :
    (init ⟨true, true, 0xA0, 64⟩ ⟨true, false, 0xA0, 64⟩).1 = Status.NotInitialized ∧
    init ⟨true, true, 0xA0, 64⟩ ⟨true, true, 0x50, 8⟩ = (Status.Sucess, ⟨true, true, 0x50, 8⟩) :=
  ⟨(C2_configure ⟨true, true, 0xA0, 64⟩ ⟨true, false, 0xA0, 64⟩).1 (Or.inr (Or.inl rfl)),
   (C2_configure ⟨true, true, 0xA0, 64⟩ ⟨true, true, 0x50, 8⟩).2 rfl rfl (by decide)⟩

/-- Claim C3: in every reachable configuration state in which a handle is
null or the page size is 0, write and read refuse to run: they return
NotInitialized with an empty event trace, so no bus operation is issued.
(Every reachable state has a positive page size, so the guard
isInitialized, which only inspects the handles, covers exactly these
states.) -/
theorem C3_uninitialized_guard (c : Config) (hreach : Reachable c)
    (h : c.hI2C = false ∨ c.hCRC = false ∨ c.pageSize = 0)
    (crcCalculate : List Nat → Nat → Nat) (transport : Nat → HALStatus) (dev : Nat → Nat)
    (page : Nat) (buffer : List Nat) (size : Nat) (useCRC : Bool) :
    write c crcCalculate transport page buffer size useCRC =
      some (Status.NotInitialized, []) ∧
    read c crcCalculate transport dev page size useCRC =
      some (Status.NotInitialized, [], []) := by
  have hp := hreach.pageSize_pos
  have hni : isInitialized c = false := by
    rcases h with h | h | h
    · simp [isInitialized, h]
    · simp [isInitialized, h]
    · omega
  constructor
  · simp [write, hni]
  · simp [read, hni]

/-- Claim C3 witness: the never-initialised default state refuses a write
and a read without any bus operation. -/
theorem C3_witness :
    write defaultConfig (fun _ _ => 0) (fun _ => HALStatus.ok) 2 [1, 2, 3] 3 true =
      some (Status.NotInitialized, []) ∧
    read defaultConfig (fun _ _ => 0) (fun _ => HALStatus.ok) (fun _ => 0) 2 3 true =
      some (Status.NotInitialized, [], []) :=
  C3_uninitialized_guard defaultConfig Reachable.initial (Or.inl rfl)
    (fun _ _ => 0) (fun _ => HALStatus.ok) (fun _ => 0) 2 [1, 2, 3] 3 true

/-- Claim C4: on a checksum-enabled write, once the data transfer has
succeeded and the checksum bus operation reports HAL_OK, the driver
appends exactly one 4-byte bus write after the data-phase events,
addressed at page page + getCountOfPagesFor(size) (uint16_t), whose bytes
are the checksum computed over exactly the first 4 * (size / 4) bytes
(that is, floor(size / 4) 32-bit words) of the original buffer. -/
theorem C4_checksum_append (c : Config) (crcCalculate : List Nat → Nat → Nat)
    (transport : Nat → HALStatus) (page : Nat) (buffer : List Nat) (size : Nat)
    (r : IterResult) (hInit : isInitialized c = true)
    (hwb : writeBuffer c transport buffer page size = some r)
    (hst : r.status = HALStatus.ok)
    (hcrc : transport (countBusOps r.events) = HALStatus.ok) :
    write c crcCalculate transport page buffer size true =
      some (Status.Sucess, r.events ++
        [Event.busWrite (getPageMemoryAddress c ((page + getCountOfPagesFor c size) % 2 ^ 16))
          (le32 (crcCalculate (buffer.take (4 * (size / 4))) (size / 4) % 2 ^ 32))]) ∧
    (le32 (crcCalculate (buffer.take (4 * (size / 4))) (size / 4) % 2 ^ 32)).length = 4 := by
  refine ⟨?_, rfl⟩
  simp [write, hInit, hwb, hst, decodeStatusHAL, writeCRC, calcCRC, hcrc]

/-- Claim C4 witness: page size 4, a 6-byte write at page 0; the two data
chunks are followed by one single 4-byte checksum write at page 2
(address 8), computed over the first 4 bytes (one word) of the buffer. -/
theorem C4_witness :
    write ⟨true, true, 0xA0, 4⟩ (fun l n => l.sum + n) (fun _ => HALStatus.ok) 0
        [1, 2, 3, 4, 5, 6] 6 true =
      some (Status.Sucess,
        [Event.busWrite 0 [1, 2, 3, 4], Event.delay 5, Event.busWrite 4 [5, 6], Event.delay 5,
          Event.busWrite 8 [11, 0, 0, 0]]) ∧
    (le32 11).length = 4 :=
  C4_checksum_append ⟨true, true, 0xA0, 4⟩ (fun l n => l.sum + n) (fun _ => HALStatus.ok) 0
    [1, 2, 3, 4, 5, 6] 6
    ⟨HALStatus.ok,
      [Event.busWrite 0 [1, 2, 3, 4], Event.delay 5, Event.busWrite 4 [5, 6], Event.delay 5],
      [], 8, 8⟩ rfl rfl rfl rfl

/-- Claim C5: the first chunk whose transport outcome is not HAL_OK aborts
the whole transfer: the operation has performed exactly
chunks-before-failure + 1 bus operations and returns the failing outcome
translated by decodeStatusHAL (timeout to Timeout, busy to Busy, any
other non-success outcome to Error). -/
theorem C5_abort_on_failure (c : Config) (crcCalculate : List Nat → Nat → Nat)
    (transport : Nat → HALStatus) (dev : Nat → Nat) (page : Nat) (buffer : List Nat)
    (size k : Nat) (useCRC : Bool) (hInit : isInitialized c = true) (hp : 0 < c.pageSize)
    (hsz : size < 2 ^ 16) (hk : k * c.pageSize < size)
    (hok : ∀ j, j < k → transport j = HALStatus.ok) (hbad : transport k ≠ HALStatus.ok) :
    (write c crcCalculate transport page buffer size useCRC).map
        (fun q => (q.1, countBusOps q.2)) =
      some (decodeStatusHAL (transport k), k + 1) ∧
    (read c crcCalculate transport dev page size useCRC).map
        (fun q => (q.1, countBusOps q.2.1)) =
      some (decodeStatusHAL (transport k), k + 1) ∧
    decodeStatusHAL HALStatus.timeout = Status.Timeout ∧
    decodeStatusHAL HALStatus.busy = Status.Busy ∧
    decodeStatusHAL HALStatus.error = Status.Error := by
  have hmod : size % 2 ^ 16 = size := Nat.mod_eq_of_lt hsz
  have hklt : k * c.pageSize < size % 2 ^ 16 := by rw [hmod]; exact hk
  have hshift0 : ∀ j, j < k → transport (0 + j) = HALStatus.ok := fun j hj => by
    simpa using hok j hj
  have hbad0 : transport (0 + k) ≠ HALStatus.ok := by simpa using hbad
  obtain ⟨r1, hr1, hs1, hc1⟩ :=
    iterateOverPagesAux_fail c XferKind.memWrite transport (fun _ => 0) buffer sWriteDelay hp
      k (size % 2 ^ 16) 0 (getPageMemoryAddress c page) 0 (size % 2 ^ 16) le_rfl hklt
      hshift0 hbad0
  obtain ⟨r2, hr2, hs2, hc2⟩ :=
    iterateOverPagesAux_fail c XferKind.memRead transport dev [] 0 hp
      k (size % 2 ^ 16) 0 (getPageMemoryAddress c page) 0 (size % 2 ^ 16) le_rfl hklt
      hshift0 hbad0
  have hs1' : r1.status = transport k := by simpa using hs1
  have hs2' : r2.status = transport k := by simpa using hs2
  have hne1 : decodeStatusHAL r1.status ≠ Status.Sucess := by
    rw [hs1']
    intro hcon
    exact hbad ((decodeStatusHAL_eq_sucess _).mp hcon)
  have hne2 : decodeStatusHAL r2.status ≠ Status.Sucess := by
    rw [hs2']
    intro hcon
    exact hbad ((decodeStatusHAL_eq_sucess _).mp hcon)
  have hwb : writeBuffer c transport buffer page size = some r1 := hr1
  have hrb : readBuffer c transport dev page size = some r2 := hr2
  refine ⟨?_, ?_, rfl, rfl, rfl⟩
  · have hw : write c crcCalculate transport page buffer size useCRC =
        some (decodeStatusHAL r1.status, r1.events) := by
      simp [write, hInit, hwb, hne1]
    rw [hw]
    simp [hs1', hc1]
  · have hr : read c crcCalculate transport dev page size useCRC =
        some (decodeStatusHAL r2.status, r2.events, r2.bytesRead) := by
      simp [read, hInit, hrb, hne2]
    rw [hr]
    simp [hs2', hc2]

/-- Claim C5 witness: page size 4, a 12-byte (3-chunk) transfer whose
second transport call times out: exactly 2 bus operations happen and both
write and read return Timeout. -/
theorem C5_witness :
    (write ⟨true, true, 0xA0, 4⟩ (fun _ _ => 0)
        (fun i => if i = 0 then HALStatus.ok else HALStatus.timeout) 0 [] 12 true).map
        (fun q => (q.1, countBusOps q.2)) = some (Status.Timeout, 2) ∧
    (read ⟨true, true, 0xA0, 4⟩ (fun _ _ => 0)
        (fun i => if i = 0 then HALStatus.ok else HALStatus.timeout) (fun _ => 0) 0 12
        true).map
        (fun q => (q.1, countBusOps q.2.1)) = some (Status.Timeout, 2) ∧
    decodeStatusHAL HALStatus.timeout = Status.Timeout ∧
    decodeStatusHAL HALStatus.busy = Status.Busy ∧
    decodeStatusHAL HALStatus.error = Status.Error :=
  C5_abort_on_failure ⟨true, true, 0xA0, 4⟩ (fun _ _ => 0)
    (fun i => if i = 0 then HALStatus.ok else HALStatus.timeout) (fun _ => 0) 0 [] 12 1 true
    rfl (by decide) (by decide) (by decide) (by decide) (by decide)

/-- Claim C6, as stated, is false on the source: the loop calls
HAL_Delay(delay) after every successful chunk with delay = 0 for reads,
so a 1-page read performs one delay invocation (of 0 ms), not zero. -/
theorem C6_counterexample :
    (readBuffer ⟨true, true, 0xA0, 4⟩ (fun _ => HALStatus.ok) (fun _ => 0) 0 4).map
        (fun r => (delayEvents r.events).length) = some 1 ∧
    (readBuffer ⟨true, true, 0xA0, 4⟩ (fun _ => HALStatus.ok) (fun _ => 0) 0 4).map
        (fun r => (delayEvents r.events).length) ≠ some 0 := by
  constructor <;> decide

/-- Claim C6 (amended): a successful write of n full pages invokes the
settle-delay primitive exactly n times, once after each successful chunk,
each with the sWriteDelay duration; a successful read of n pages also
invokes the delay primitive once per chunk, but always with a duration of
0 ms, so no settle time elapses on reads. -/
theorem C6_settle_delay_amended (c : Config) (transport : Nat → HALStatus) (dev : Nat → Nat)
    (buffer : List Nat) (page n : Nat) (hp : 0 < c.pageSize)
    (htr : ∀ i, transport i = HALStatus.ok) (hsz : n * c.pageSize < 2 ^ 16) :
    (writeBuffer c transport buffer page (n * c.pageSize)).map
        (fun r => (r.status, delayEvents r.events)) =
      some (HALStatus.ok, List.replicate n (Event.delay sWriteDelay)) ∧
    (readBuffer c transport dev page (n * c.pageSize)).map
        (fun r => (r.status, delayEvents r.events)) =
      some (HALStatus.ok, List.replicate n (Event.delay 0)) := by
  have hmod : n * c.pageSize % 2 ^ 16 = n * c.pageSize := Nat.mod_eq_of_lt hsz
  have hbase : getPageMemoryAddress c page < 2 ^ 16 := Nat.mod_lt _ (by norm_num)
  constructor
  · obtain ⟨r, hr, hst, _, hdel, _, _⟩ :=
      iterateOverPagesAux_ok c XferKind.memWrite transport (fun _ => 0) buffer sWriteDelay hp
        htr (n * c.pageSize % 2 ^ 16) 0 (getPageMemoryAddress c page) 0
        (n * c.pageSize % 2 ^ 16) le_rfl hbase
    rw [hmod, numChunks_mul c.pageSize hp n] at hdel
    have hwb : writeBuffer c transport buffer page (n * c.pageSize) = some r := hr
    rw [hwb]
    simp [hst, hdel]
  · obtain ⟨r, hr, hst, _, hdel, _, _⟩ :=
      iterateOverPagesAux_ok c XferKind.memRead transport dev [] 0 hp
        htr (n * c.pageSize % 2 ^ 16) 0 (getPageMemoryAddress c page) 0
        (n * c.pageSize % 2 ^ 16) le_rfl hbase
    rw [hmod, numChunks_mul c.pageSize hp n] at hdel
    have hrb : readBuffer c transport dev page (n * c.pageSize) = some r := hr
    rw [hrb]
    simp [hst, hdel]

/-- Claim C6 witness: page size 4, a 2-page transfer; the write performs
two delay invocations of sWriteDelay = 5 ms, the read performs two delay
invocations of 0 ms. -/
theorem C6_witness :
    (writeBuffer ⟨true, true, 0xA0, 4⟩ (fun _ => HALStatus.ok) [1, 2, 3, 4, 5, 6, 7, 8]
        0 8).map (fun r => (r.status, delayEvents r.events)) =
      some (HALStatus.ok, [Event.delay 5, Event.delay 5]) ∧
    (readBuffer ⟨true, true, 0xA0, 4⟩ (fun _ => HALStatus.ok) (fun _ => 0) 0 8).map
        (fun r => (r.status, delayEvents r.events)) =
      some (HALStatus.ok, [Event.delay 0, Event.delay 0]) :=
  C6_settle_delay_amended ⟨true, true, 0xA0, 4⟩ (fun _ => HALStatus.ok) (fun _ => 0)
    [1, 2, 3, 4, 5, 6, 7, 8] 0 2 (by decide) (fun _ => rfl) (by decide)

/-- Claim C7: in a successful transfer the i-th chunk addresses
pageAddress(page) + i * pageSize (uint16_t) at buffer offset
i * pageSize and covers min (size - i * pageSize) pageSize bytes — never
more than pageSize — and after every chunk, the final short one included,
both the memory-address cursor and the buffer cursor have advanced by
exactly pageSize, ending at numChunks * pageSize past their starts. -/
theorem C7_chunking (c : Config) (kind : XferKind) (transport : Nat → HALStatus)
    (dev : Nat → Nat) (buffer : List Nat) (page size d : Nat)
    (hp : 0 < c.pageSize) (hsz : size < 2 ^ 16) (htr : ∀ i, transport i = HALStatus.ok) :
    (iterateOverPages c kind transport dev buffer page size d).map
        (fun r => (r.status, busEvents r.events, r.memoryAddress, r.ptrOff)) =
      some (HALStatus.ok,
        (List.range (numChunks c.pageSize size)).map (fun i =>
          chunkEvent kind buffer
            ((getPageMemoryAddress c page + i * c.pageSize) % 2 ^ 16)
            (i * c.pageSize) (min (size - i * c.pageSize) c.pageSize)),
        (getPageMemoryAddress c page + numChunks c.pageSize size * c.pageSize) % 2 ^ 16,
        numChunks c.pageSize size * c.pageSize) := by
  have hmod : size % 2 ^ 16 = size := Nat.mod_eq_of_lt hsz
  obtain ⟨r, hr, hst, hbus, _, hma, hpo⟩ :=
    iterateOverPagesAux_ok c kind transport dev buffer d hp htr
      (size % 2 ^ 16) 0 (getPageMemoryAddress c page) 0 (size % 2 ^ 16) le_rfl
      (Nat.mod_lt _ (by norm_num))
  rw [hmod] at hbus hma hpo
  have hip : iterateOverPages c kind transport dev buffer page size d = some r := hr
  rw [hip]
  simp only [Option.map_some']
  rw [hst, hbus, hma, hpo]
  simp

/-- Claim C7 witness: page size 4, a 6-byte transfer at page 1 (base
address 4): chunks of 4 and 2 bytes at addresses 4 and 8, buffer offsets
0 and 4, cursors ending at 12 and 8. -/
theorem C7_witness :
    (iterateOverPages ⟨true, true, 0xA0, 4⟩ XferKind.memWrite (fun _ => HALStatus.ok)
        (fun _ => 0) [9, 8, 7, 6, 5, 4] 1 6 7).map
        (fun r => (r.status, busEvents r.events, r.memoryAddress, r.ptrOff)) =
      some (HALStatus.ok, [Event.busWrite 4 [9, 8, 7, 6], Event.busWrite 8 [5, 4]], 12, 8) :=
  C7_chunking ⟨true, true, 0xA0, 4⟩ XferKind.memWrite (fun _ => HALStatus.ok) (fun _ => 0)
    [9, 8, 7, 6, 5, 4] 1 6 7 (by decide) (by decide) (fun _ => rfl)

/-- Claim C8: on a checksum-enabled read whose data phase and checksum
read both report HAL_OK, a mismatch between the stored checksum word and
the checksum recomputed over the just-read bytes yields InvalidCRC while
the caller's buffer keeps exactly the raw bytes the data transfer
deposited (the transfer happens before and is not undone by the
comparison). -/
theorem C8_invalid_crc_buffer (c : Config) (crcCalculate : List Nat → Nat → Nat)
    (transport : Nat → HALStatus) (dev : Nat → Nat) (page size : Nat) (r : IterResult)
    (hInit : isInitialized c = true)
    (hrb : readBuffer c transport dev page size = some r)
    (hst : r.status = HALStatus.ok)
    (hcrc : transport (countBusOps r.events) = HALStatus.ok)
    (hmismatch :
      word32At dev (getPageMemoryAddress c ((page + getCountOfPagesFor c size) % 2 ^ 16)) ≠
        calcCRC crcCalculate r.bytesRead size) :
    read c crcCalculate transport dev page size true =
      some (Status.InvalidCRC, r.events ++
        [Event.busRead (getPageMemoryAddress c ((page + getCountOfPagesFor c size) % 2 ^ 16))
          4],
        r.bytesRead) := by
  simp [read, hInit, hrb, hst, decodeStatusHAL, readCRC, hcrc]
  simpa using hmismatch

/-- Claim C8 witness: page size 4, a 4-byte read of all-one bytes with a
zero checksum engine: the stored word 16843009 differs from the
recomputed 0, the read returns InvalidCRC, and the returned buffer still
holds the raw bytes 1, 1, 1, 1. -/
theorem C8_witness :
    read ⟨true, true, 0xA0, 4⟩ (fun _ _ => 0) (fun _ => HALStatus.ok) (fun _ => 1) 0 4 true =
      some (Status.InvalidCRC, [Event.busRead 0 4, Event.delay 0, Event.busRead 8 4],
        [1, 1, 1, 1]) :=
  C8_invalid_crc_buffer ⟨true, true, 0xA0, 4⟩ (fun _ _ => 0) (fun _ => HALStatus.ok)
    (fun _ => 1) 0 4
    ⟨HALStatus.ok, [Event.busRead 0 4, Event.delay 0], [1, 1, 1, 1], 4, 4⟩
    rfl rfl rfl rfl (by decide)

/-- Claim C9: a rejected configure (null handle or pageSize 0) is atomic:
EEPROM::init returns NotInitialized and leaves the stored configuration
exactly as it was, so its initialised-ness is unchanged. -/
theorem C9_init_atomic (mConfig config : Config)
    (h : config.hI2C = false ∨ config.hCRC = false ∨ config.pageSize = 0) :
    init mConfig config = (Status.NotInitialized, mConfig) ∧
    isInitialized (init mConfig config).2 = isInitialized mConfig := by
  simp [init, if_pos h]

/-- Claim C9 witness: re-configuring an initialised driver with pageSize 0
fails and leaves the prior configuration, still initialised, in place. -/
theorem C9_witness :
    init ⟨true, true, 0xA0, 32⟩ ⟨true, true, 0xA0, 0⟩ =
      (Status.NotInitialized, ⟨true, true, 0xA0, 32⟩) ∧
    isInitialized (init ⟨true, true, 0xA0, 32⟩ ⟨true, true, 0xA0, 0⟩).2 =
      isInitialized ⟨true, true, 0xA0, 32⟩ :=
  C9_init_atomic ⟨true, true, 0xA0, 32⟩ ⟨true, true, 0xA0, 0⟩ (Or.inr (Or.inr rfl))

/-- Claim C10: for every initialised configuration a transfer of length 0
performs no bus operation at all and succeeds: both
write(page, buffer, 0, false) and read(page, buffer, 0, false) return
Sucess with an empty event trace. -/
theorem C10_zero_length (c : Config) (crcCalculate : List Nat → Nat → Nat)
    (transport : Nat → HALStatus) (dev : Nat → Nat) (page : Nat) (buffer : List Nat)
    (hInit : isInitialized c = true) :
    write c crcCalculate transport page buffer 0 false = some (Status.Sucess, []) ∧
    read c crcCalculate transport dev page 0 false = some (Status.Sucess, [], []) := by
  constructor
  · simp [write, hInit, writeBuffer, iterateOverPages, iterateOverPagesAux, decodeStatusHAL]
  · simp [read, hInit, readBuffer, iterateOverPages, iterateOverPagesAux, decodeStatusHAL]

/-- Claim C10 witness: with the stock 64-byte-page configuration a
zero-length write and read both succeed without touching the bus. -/
theorem C10_witness :
    write ⟨true, true, 0xA0, 64⟩ (fun _ _ => 0) (fun _ => HALStatus.ok) 3 [7] 0 false =
      some (Status.Sucess, []) ∧
    read ⟨true, true, 0xA0, 64⟩ (fun _ _ => 0) (fun _ => HALStatus.ok) (fun _ => 0) 3 0
        false =
      some (Status.Sucess, [], []) :=
  C10_zero_length ⟨true, true, 0xA0, 64⟩ (fun _ _ => 0) (fun _ => HALStatus.ok) (fun _ => 0)
    3 [7] rfl

end EEPROM
